import Mathlib

/-!
Verification of the distributed Game of Life coordinator and worker
(`engine/broker.go`, `worker/gol_worker.go`).

Grids (`[][]byte` in Go) are embedded as `List (List ℕ)`; out-of-range
indexing uses the default `0` / `[]` (the Go code only indexes in bounds in
the scenarios covered by the theorems, where dimension hypotheses make the
defaults unreachable).  The worker's internal goroutine chunking writes
disjoint rows of a preallocated slice, so `calculateNextState` is embedded
as the equivalent deterministic per-cell computation.  The broker's
`float32` row-partition arithmetic is embedded exactly, via an integer
model of IEEE-754 binary32 round-to-nearest-even (valid on the normal
range, which covers every value the partition produces).
-/

/-- Cell coordinate, from `util.Cell` (X = column, Y = row). -/
structure Cell where
  X : ℕ
  Y : ℕ
deriving DecidableEq, Repr

/-- Flip event, from `stubs.FlippedEvent`. -/
structure FlippedEvent where
  CompletedTurns : ℕ
  Cell : Cell
deriving DecidableEq, Repr

/-- Simulation parameters, from `gol.Params`. -/
structure Params where
  Turns : ℕ
  Threads : ℕ
  ImageWidth : ℕ
  ImageHeight : ℕ
deriving DecidableEq, Repr

/-- Request shape of `Broker.EvolveWorld`, from `stubs.EvolveWorldRequest`. -/
structure EvolveWorldRequest where
  World : List (List ℕ)
  Width : ℕ
  Height : ℕ
  Turn : ℕ
  Threads : ℕ
  ImageHeight : ℕ
  ImageWidth : ℕ
deriving DecidableEq, Repr

/-- Response shape of `Broker.EvolveWorld`, from `stubs.EvolveResponse`. -/
structure EvolveResponse where
  World : List (List ℕ)
  Turn : ℕ
deriving DecidableEq, Repr

/-- Broker state, from the `Broker` struct in `engine/broker.go`.  `Workers`
is the number of connected worker clients (`len(b.Workers)`); the worker
handles themselves carry no state that affects the computed grids.  The
mutex `Mu` is modelled separately (see the lock model below); the unused
fields `Cell` and `CellUpdates` are omitted. -/
structure Broker where
  LastWorld : List (List ℕ)
  World : List (List ℕ)
  Turn : ℕ
  Quit : Bool
  Workers : ℕ
  TurnDone : Bool
  FlippedEvents : List FlippedEvent
  Continue : Bool
deriving DecidableEq, Repr

/-- Reading `world[i][j]`, with default 0 out of range. -/
def getCell (world : List (List ℕ)) (i j : ℕ) : ℕ :=
  (world.getD i []).getD j 0

/-- Sum of the 8 toroidal neighbour bytes divided by 255, exactly as written
in `calculateNextState` (`worker/gol_worker.go`). -/
def neighborSum (world : List (List ℕ)) (width height i j : ℕ) : ℕ :=
  (getCell world ((i + height - 1) % height) ((j + width - 1) % width) +
   getCell world ((i + height - 1) % height) ((j + width) % width) +
   getCell world ((i + height - 1) % height) ((j + width + 1) % width) +
   getCell world ((i + height) % height) ((j + width - 1) % width) +
   getCell world ((i + height) % height) ((j + width + 1) % width) +
   getCell world ((i + height + 1) % height) ((j + width - 1) % width) +
   getCell world ((i + height + 1) % height) ((j + width) % width) +
   getCell world ((i + height + 1) % height) ((j + width + 1) % width)) / 255

/-- The per-cell update rule of `calculateNextState`. -/
def nextCell (world : List (List ℕ)) (width height i j : ℕ) : ℕ :=
  if getCell world i j = 255 then
    if neighborSum world width height i j < 2 ∨ neighborSum world width height i j > 3 then 0
    else 255
  else
    if neighborSum world width height i j = 3 then 255 else 0

/-- The worker's `calculateNextState(world, width, height, startRow, endRow)`:
rows `startRow ≤ i < endRow`, columns `0 ≤ j < width` of the next
generation.  The goroutine chunking in the Go source partitions the row
interval into blocks of 4 and writes disjoint rows, so the result equals
this per-cell map. -/
def calculateNextState (world : List (List ℕ)) (width height startRow endRow : ℕ) :
    List (List ℕ) :=
  (List.range (endRow - startRow)).map fun r =>
    (List.range width).map fun j => nextCell world width height (startRow + r) j

/-- Fuel-bounded floor of log2 (structural recursion so the kernel can
evaluate it). -/
def nlog2F : ℕ → ℕ → ℕ
  | 0, _ => 0
  | fuel + 1, n => if n < 2 then 0 else 1 + nlog2F fuel (n / 2)

/-- Floor of log2 on ℕ (0 at 0). -/
def nlog2 (n : ℕ) : ℕ := nlog2F n n

/-- Round the positive rational n/d to IEEE-754 binary32 (round to nearest,
ties to even), returned as a dyadic value `(m, k)` denoting `m * 2 ^ k`.
Valid on the normal range (no subnormal or overflow handling), which covers
all values arising in the broker's partition arithmetic. -/
def round32ND (n d : ℕ) : ℕ × ℤ :=
  if n = 0 ∨ d = 0 then (0, 0) else
  let e : ℤ := (nlog2 (n * 2 ^ 64 / d) : ℤ) - 64
  let k : ℤ := e - 23
  let N : ℕ := if 0 ≤ k then n else n * 2 ^ (-k).toNat
  let D : ℕ := if 0 ≤ k then d * 2 ^ k.toNat else d
  let q : ℕ := N / D
  let r : ℕ := N % D
  let m : ℕ := if D < 2 * r then q + 1 else if 2 * r < D then q else if q % 2 = 0 then q else q + 1
  (m, k)

/-- Correctly rounded float32 product of two dyadic float values. -/
def dyMul (a b : ℕ × ℤ) : ℕ × ℤ :=
  let n := a.1 * b.1
  let k := a.2 + b.2
  if 0 ≤ k then round32ND (n * 2 ^ k.toNat) 1 else round32ND n (2 ^ (-k).toNat)

/-- Correctly rounded float32 quotient of two dyadic float values. -/
def dyDiv (a b : ℕ × ℤ) : ℕ × ℤ :=
  let k := a.2 - b.2
  if 0 ≤ k then round32ND (a.1 * 2 ^ k.toNat) b.1 else round32ND a.1 (b.1 * 2 ^ (-k).toNat)

/-- Go's `int(f)` for a non-negative float value: truncation toward zero. -/
def dyFloorNat (a : ℕ × ℤ) : ℕ :=
  if 0 ≤ a.2 then a.1 * 2 ^ a.2.toNat else a.1 / 2 ^ (-a.2).toNat

/-- Go's `float32(n)` conversion of a non-negative int. -/
def conv32 (n : ℕ) : ℕ × ℤ := round32ND n 1

/-- `heightDiff = float32(p.ImageHeight) / float32(threads)` from the broker's
`worker` function. -/
def heightDiff (height threads : ℕ) : ℕ × ℤ := dyDiv (conv32 height) (conv32 threads)

/-- `int(float32(i) * heightDiff)`: the i-th row boundary computed by the
broker's `worker` function. -/
def boundF32 (height threads i : ℕ) : ℕ :=
  dyFloorNat (dyMul (conv32 i) (heightDiff height threads))

/-- `startRow` of worker `id` out of `threads` workers. -/
def startRowW (height threads id : ℕ) : ℕ := boundF32 height threads id

/-- `endRow` of worker `id`, clamped to `height` exactly as in the source. -/
def endRowW (height threads id : ℕ) : ℕ := min (boundF32 height threads (id + 1)) height

/-- The row ranges dispatched in one iteration of the `EvolveWorld` loop:
one per connected worker, in worker-index order. -/
def iterRanges (height threads : ℕ) : List (ℕ × ℕ) :=
  (List.range threads).map fun id => (startRowW height threads id, endRowW height threads id)

/-- One iteration of the `EvolveWorld` loop: fan out the current grid to the
`n` connected workers (each applying `calculateNextState` to its range) and
concatenate the replies in worker-index order (`newWorld = append(newWorld,
slice...)` over the ordered result channels). -/
def oneTurn (world : List (List ℕ)) (p : Params) (n : ℕ) : List (List ℕ) :=
  ((iterRanges p.ImageHeight n).map fun r =>
    calculateNextState world p.ImageWidth p.ImageHeight r.1 r.2).flatten

/-- The `for b.Turn < p.Turns && !b.Quit` loop of `EvolveWorld`, with fuel for
structural recursion.  `Quit` is false throughout in the sequential model
(EvolveWorld resets it on entry and nothing in the loop sets it). -/
def EvolveWorldLoop : ℕ → List (List ℕ) → ℕ → Params → ℕ → List (List ℕ) × ℕ
  | 0, world, turn, _, _ => (world, turn)
  | fuel + 1, world, turn, p, n =>
      if turn < p.Turns then EvolveWorldLoop fuel (oneTurn world p n) (turn + 1) p n
      else (world, turn)

/-- The `gol.Params` value built inside `EvolveWorld` from the request. -/
def reqParams (req : EvolveWorldRequest) : Params :=
  { Turns := req.Turn, Threads := req.Threads
    ImageWidth := req.ImageWidth, ImageHeight := req.ImageHeight }

/-- `Broker.EvolveWorld`: reset `Quit`; unless `Continue` is set adopt the
request grid and reset `Turn`; set `LastWorld`; run the turn loop; reply
with the final grid and turn.  The fuel `p.Turns - Turn` is exact: the loop
increments `Turn` once per iteration and exits as soon as `Turn ≥ p.Turns`.
The Go method always returns a nil error. -/
def EvolveWorld (b : Broker) (req : EvolveWorldRequest) : Broker × EvolveResponse :=
  let b1 : Broker := { b with Quit := false }
  let b2 : Broker := if b1.Continue then b1 else { b1 with World := req.World, Turn := 0 }
  let b3 : Broker := { b2 with LastWorld := b2.World }
  let p : Params := reqParams req
  let wt := EvolveWorldLoop (p.Turns - b3.Turn) b3.World b3.Turn p b3.Workers
  ({ b3 with
      World := wt.1, Turn := wt.2
      TurnDone := if b3.Turn < p.Turns then true else b3.TurnDone },
   { World := wt.1, Turn := wt.2 })

/-- `Broker.CalculateAliveCells`: row-major coordinates of all cells equal
to 255. -/
def CalculateAliveCells (b : Broker) : Broker × List Cell :=
  (b, (List.range b.World.length).flatMap fun i =>
    (List.range ((b.World.getD i []).length)).filterMap fun j =>
      if getCell b.World i j = 255 then some ⟨j, i⟩ else none)

/-- `Broker.AliveCellsCount`: number of alive cells and current turn. -/
def AliveCellsCount (b : Broker) : Broker × (ℕ × ℕ) :=
  (b, ((b.World.map fun row => row.countP fun v => v == 255).sum, b.Turn))

/-- `Broker.GetGlobal`: current grid and turn. -/
def GetGlobal (b : Broker) : Broker × (List (List ℕ) × ℕ) := (b, (b.World, b.Turn))

/-- `Broker.QuitServer` (Checkpoint): set `Continue`, set `Quit`, snapshot
`LastWorld = World`.  It does not touch the workers or the process. -/
def QuitServer (b : Broker) : Broker :=
  { b with Continue := true, Quit := true, LastWorld := b.World }

/-- `Broker.KillServer` state effect on the broker fields: sets `Quit`
(worker shutdown and process exit are outside the state model). -/
def KillServer (b : Broker) : Broker := { b with Quit := true }

/-- `Broker.GetTurnDone`: return and clear the `TurnDone` flag. -/
def GetTurnDone (b : Broker) : Broker × (Bool × ℕ) :=
  ({ b with TurnDone := false }, (b.TurnDone, b.Turn))

/-- `Broker.GetContinue`: current grid, turn and fault-tolerance flag. -/
def GetContinue (b : Broker) : Broker × (Bool × List (List ℕ) × ℕ) :=
  (b, (b.Continue, b.World, b.Turn))

/-- `Broker.Pause` effect on the broker fields: none (it only acquires the
mutex, modelled below). -/
def Pause (b : Broker) : Broker := b

/-- `Broker.Unpause` effect on the broker fields: none (it only releases the
mutex, modelled below). -/
def Unpause (b : Broker) : Broker := b

/-- `xor2D(a, b)`: elementwise XOR, with the shape of `a`. -/
def xor2D (a b : List (List ℕ)) : List (List ℕ) :=
  (List.range a.length).map fun i =>
    (List.range (a.getD 0 []).length).map fun j => getCell a i j ^^^ getCell b i j

/-- `findFlippedCells(next, current)`: empty if either grid has no rows or an
empty first row; otherwise the row-major coordinates of nonzero entries of
`xor2D current next`. -/
def findFlippedCells (next current : List (List ℕ)) : List Cell :=
  if current.length = 0 ∨ next.length = 0 ∨
     (current.getD 0 []).length = 0 ∨ (next.getD 0 []).length = 0 then []
  else
    let xorWorld := xor2D current next
    (List.range xorWorld.length).flatMap fun i =>
      (List.range ((xorWorld.getD 0 []).length)).filterMap fun j =>
        if (xorWorld.getD i []).getD j 0 ≠ 0 then some ⟨j, i⟩ else none

/-- `Broker.GetCellFlipped`: the flipped cells between `World` and
`LastWorld`, each stamped with the current turn; then `LastWorld = World`. -/
def GetCellFlipped (b : Broker) : Broker × List FlippedEvent :=
  let evs := (findFlippedCells b.World b.LastWorld).map fun c =>
    { CompletedTurns := b.Turn, Cell := c }
  ({ b with FlippedEvents := evs, LastWorld := b.World }, evs)

/-- The broker entry points that interact with the session mutex `b.Mu`.
`loopIter` is one iteration of the `EvolveWorld` turn loop (which locks at
its start and unlocks at its end). -/
inductive BrokerOp
  | loopIter | getGlobal | aliveCellsCount | calculateAliveCells
  | getCellFlipped | getTurnDone | getContinue | quitServer | pause | unpause
deriving DecidableEq, Repr

/-- Whether an operation can make progress when the mutex state is `mu`
(`true` = held).  Every operation except `Unpause` begins with `b.Mu.Lock()`
and therefore blocks while the mutex is held; `Unpause` performs
`b.Mu.Unlock()`, which is legal only while the mutex is held (unlocking an
unlocked `sync.Mutex` is a run-time error in Go). -/
def canProceed (op : BrokerOp) (mu : Bool) : Bool :=
  match op with
  | .unpause => mu
  | _ => !mu

/-- Mutex state after an operation completes: `Pause` returns holding the
lock, `Unpause` releases it, every other operation releases what it
acquired. -/
def muAfter (op : BrokerOp) (mu : Bool) : Bool :=
  match op with
  | .pause => true
  | .unpause => false
  | _ => mu

/-- Specification-side vocabulary: the number of the 8 toroidal neighbours of
column `x`, row `y` that are alive (byte value 255). -/
def aliveCount (world : List (List ℕ)) (width height y x : ℕ) : ℕ :=
  (if getCell world ((y + height - 1) % height) ((x + width - 1) % width) = 255 then 1 else 0) +
  (if getCell world ((y + height - 1) % height) ((x + width) % width) = 255 then 1 else 0) +
  (if getCell world ((y + height - 1) % height) ((x + width + 1) % width) = 255 then 1 else 0) +
  (if getCell world ((y + height) % height) ((x + width - 1) % width) = 255 then 1 else 0) +
  (if getCell world ((y + height) % height) ((x + width + 1) % width) = 255 then 1 else 0) +
  (if getCell world ((y + height + 1) % height) ((x + width - 1) % width) = 255 then 1 else 0) +
  (if getCell world ((y + height + 1) % height) ((x + width) % width) = 255 then 1 else 0) +
  (if getCell world ((y + height + 1) % height) ((x + width + 1) % width) = 255 then 1 else 0)

lemma getD_map_range {α : Type} (f : ℕ → α) (d : α) {k n : ℕ} (h : k < n) :
    ((List.range n).map f).getD k d = f k := by
  rw [List.getD_eq_getElem _ _ (by simpa using h)]
  simp

lemma cell_mem_01 (world : List (List ℕ)) (width height : ℕ)
    (hlen : world.length = height)
    (hrow : ∀ row ∈ world, row.length = width)
    (hcell : ∀ row ∈ world, ∀ v ∈ row, v = 0 ∨ v = 255)
    {y x : ℕ} (hy : y < height) (hx : x < width) :
    getCell world y x = 0 ∨ getCell world y x = 255 := by
  have hy' : y < world.length := by omega
  have hmem : world[y] ∈ world := List.getElem_mem hy'
  have hx' : x < world[y].length := by rw [hrow _ hmem]; exact hx
  have : getCell world y x = world[y][x] := by
    unfold getCell
    rw [List.getD_eq_getElem _ _ hy', List.getD_eq_getElem _ _ hx']
  rw [this]
  exact hcell _ hmem _ (List.getElem_mem hx')

lemma sum8_div255 (i1 i2 i3 i4 i5 i6 i7 i8 : ℕ) :
    (255 * i1 + 255 * i2 + 255 * i3 + 255 * i4 + 255 * i5 + 255 * i6 + 255 * i7 + 255 * i8) / 255
      = i1 + i2 + i3 + i4 + i5 + i6 + i7 + i8 := by
  have h : 255 * i1 + 255 * i2 + 255 * i3 + 255 * i4 + 255 * i5 + 255 * i6 + 255 * i7 + 255 * i8
      = 255 * (i1 + i2 + i3 + i4 + i5 + i6 + i7 + i8) := by ring
  rw [h]
  exact Nat.mul_div_cancel_left _ (by norm_num)

lemma val_eq_255_mul_ind {v : ℕ} (h : v = 0 ∨ v = 255) :
    v = 255 * (if v = 255 then 1 else 0) := by
  rcases h with h | h <;> simp [h]

lemma neighborSum_eq_aliveCount (world : List (List ℕ)) (width height y x : ℕ)
    (hlen : world.length = height)
    (hrow : ∀ row ∈ world, row.length = width)
    (hcell : ∀ row ∈ world, ∀ v ∈ row, v = 0 ∨ v = 255)
    (hy : y < height) (hx : x < width) :
    neighborSum world width height y x = aliveCount world width height y x := by
  have hh : 0 < height := by omega
  have hw : 0 < width := by omega
  have m01 : ∀ a b : ℕ, getCell world (a % height) (b % width) = 0 ∨
      getCell world (a % height) (b % width) = 255 := fun a b =>
    cell_mem_01 world width height hlen hrow hcell (Nat.mod_lt _ hh) (Nat.mod_lt _ hw)
  unfold neighborSum aliveCount
  conv_lhs =>
    rw [val_eq_255_mul_ind (m01 (y + height - 1) (x + width - 1)),
        val_eq_255_mul_ind (m01 (y + height - 1) (x + width)),
        val_eq_255_mul_ind (m01 (y + height - 1) (x + width + 1)),
        val_eq_255_mul_ind (m01 (y + height) (x + width - 1)),
        val_eq_255_mul_ind (m01 (y + height) (x + width + 1)),
        val_eq_255_mul_ind (m01 (y + height + 1) (x + width - 1)),
        val_eq_255_mul_ind (m01 (y + height + 1) (x + width)),
        val_eq_255_mul_ind (m01 (y + height + 1) (x + width + 1))]
  exact sum8_div255 _ _ _ _ _ _ _ _

lemma nextCell_char (world : List (List ℕ)) (width height y x : ℕ)
    (hlen : world.length = height)
    (hrow : ∀ row ∈ world, row.length = width)
    (hcell : ∀ row ∈ world, ∀ v ∈ row, v = 0 ∨ v = 255)
    (hy : y < height) (hx : x < width) :
    (nextCell world width height y x = 255 ↔
      ((getCell world y x = 255 ∧
         (aliveCount world width height y x = 2 ∨ aliveCount world width height y x = 3)) ∨
       (getCell world y x = 0 ∧ aliveCount world width height y x = 3))) ∧
    (nextCell world width height y x = 255 ∨ nextCell world width height y x = 0) := by
  have hs := neighborSum_eq_aliveCount world width height y x hlen hrow hcell hy hx
  have hc := cell_mem_01 world width height hlen hrow hcell hy hx
  unfold nextCell
  rw [hs]
  rcases hc with h | h <;> rw [h] <;> split_ifs with h1 <;>
    first
      | omega
      | (simp_all; omega)
      | simp_all

/-- C1.  On a grid of the stated dimensions whose cells all lie in {0, 255},
`calculateNextState` returns an `(endRow - startRow) × width` grid in which
the cell at relative row `r` and column `x` is 255 exactly when the Game of
Life rule (alive with 2 or 3 live toroidal neighbours, or dead with exactly
3) makes cell `(x, startRow + r)` alive, and every other cell is 0. -/
theorem C1_calculateNextState_correct
    (world : List (List ℕ)) (width height startRow endRow : ℕ)
    (hlen : world.length = height)
    (hrow : ∀ row ∈ world, row.length = width)
    (hcell : ∀ row ∈ world, ∀ v ∈ row, v = 0 ∨ v = 255)
    (hwidth : 1 ≤ width) (hheight : 1 ≤ height)
    (hstart : startRow ≤ endRow) (hend : endRow ≤ height) :
    (calculateNextState world width height startRow endRow).length = endRow - startRow ∧
    ∀ r, r < endRow - startRow →
      ((calculateNextState world width height startRow endRow).getD r []).length = width ∧
      ∀ x, x < width →
        (getCell (calculateNextState world width height startRow endRow) r x = 255 ↔
          ((getCell world (startRow + r) x = 255 ∧
             (aliveCount world width height (startRow + r) x = 2 ∨
              aliveCount world width height (startRow + r) x = 3)) ∨
           (getCell world (startRow + r) x = 0 ∧
             aliveCount world width height (startRow + r) x = 3))) ∧
        (getCell (calculateNextState world width height startRow endRow) r x = 255 ∨
         getCell (calculateNextState world width height startRow endRow) r x = 0) := by
  have hrowD : ∀ r, r < endRow - startRow →
      (calculateNextState world width height startRow endRow).getD r [] =
        (List.range width).map fun j => nextCell world width height (startRow + r) j := by
    intro r hr
    unfold calculateNextState
    exact getD_map_range _ _ hr
  refine ⟨by simp [calculateNextState], fun r hr => ⟨by rw [hrowD r hr]; simp, fun x hx => ?_⟩⟩
  have hcellD : getCell (calculateNextState world width height startRow endRow) r x =
      nextCell world width height (startRow + r) x := by
    unfold getCell
    rw [hrowD r hr, getD_map_range _ _ hx]
  rw [hcellD]
  exact nextCell_char world width height (startRow + r) x hlen hrow hcell (by omega) hx

/-- Witness for C1 at a concrete 2×2 grid. -/
theorem C1_calculateNextState_correct_witness :
    (([[255, 255], [255, 0]] : List (List ℕ)).length = 2 ∧
     (∀ row ∈ ([[255, 255], [255, 0]] : List (List ℕ)), row.length = 2) ∧
     (∀ row ∈ ([[255, 255], [255, 0]] : List (List ℕ)), ∀ v ∈ row, v = 0 ∨ v = 255) ∧
     (1 : ℕ) ≤ 2 ∧ (0 : ℕ) ≤ 2 ∧ (2 : ℕ) ≤ 2) ∧
    ((calculateNextState [[255, 255], [255, 0]] 2 2 0 2).length = 2 - 0 ∧
     ∀ r, r < 2 - 0 →
      ((calculateNextState [[255, 255], [255, 0]] 2 2 0 2).getD r []).length = 2 ∧
      ∀ x, x < 2 →
        (getCell (calculateNextState [[255, 255], [255, 0]] 2 2 0 2) r x = 255 ↔
          ((getCell [[255, 255], [255, 0]] (0 + r) x = 255 ∧
             (aliveCount [[255, 255], [255, 0]] 2 2 (0 + r) x = 2 ∨
              aliveCount [[255, 255], [255, 0]] 2 2 (0 + r) x = 3)) ∨
           (getCell [[255, 255], [255, 0]] (0 + r) x = 0 ∧
             aliveCount [[255, 255], [255, 0]] 2 2 (0 + r) x = 3))) ∧
        (getCell (calculateNextState [[255, 255], [255, 0]] 2 2 0 2) r x = 255 ∨
         getCell (calculateNextState [[255, 255], [255, 0]] 2 2 0 2) r x = 0)) :=
  ⟨⟨by decide, by decide, by decide, by decide, by decide, by decide⟩,
   C1_calculateNextState_correct [[255, 255], [255, 0]] 2 2 0 2
     (by decide) (by decide) (by decide) (by decide) (by decide) (by decide) (by decide)⟩

/-- The set of rows covered by a list of row ranges. -/
def coveredRows (rs : List (ℕ × ℕ)) : List ℕ :=
  rs.flatMap fun r => (List.range (r.2 - r.1)).map fun k => r.1 + k

/-- C5 (failing input).  At height 13 with 11 workers, the broker's float32
partition arithmetic produces ranges whose last boundary is
int(11 * float32(13/11)) = int(12.999999) = 12, so row 12 belongs to no
range: the union of the ranges is [0, 12), not [0, 13) as the claim
requires. -/
theorem C5_partition_misses_row :
    iterRanges 13 11 =
      [(0, 1), (1, 2), (2, 3), (3, 4), (4, 5), (5, 7), (7, 8), (8, 9), (9, 10),
       (10, 11), (11, 12)] ∧
    (12 : ℕ) ∉ coveredRows (iterRanges 13 11) ∧ (12 : ℕ) < 13 := by decide

/-- A 13-row, 1-column all-dead grid. -/
def world13 : List (List ℕ) := List.replicate 13 [0]

/-- C2 (failing input).  With threads = 11 ≤ height = 13, concatenating the
11 partial results in worker-index order (exactly what one iteration of the
broker's fan-out/fan-in does) yields a 12-row grid, while the single call
over [0, 13) yields 13 rows: the two disagree because the float32 partition
drops row 12. -/
theorem C2_fanin_differs_from_single_call :
    (oneTurn world13 { Turns := 1, Threads := 11, ImageWidth := 1, ImageHeight := 13 } 11).length
        = 12 ∧
    (calculateNextState world13 1 13 0 13).length = 13 ∧
    oneTurn world13 { Turns := 1, Threads := 11, ImageWidth := 1, ImageHeight := 13 } 11 ≠
      calculateNextState world13 1 13 0 13 := by decide

/-- Broker with a single connected worker, for the C6 counterexample. -/
def brokerC6 : Broker :=
  { LastWorld := [], World := [[0], [0]], Turn := 0, Quit := false, Workers := 1,
    TurnDone := false, FlippedEvents := [], Continue := false }

/-- Request asking for 2 threads, for the C6 counterexample. -/
def reqC6 : EvolveWorldRequest :=
  { World := [[0], [0]], Width := 1, Height := 2, Turn := 1, Threads := 2,
    ImageHeight := 2, ImageWidth := 1 }

/-- C6 (counterexample).  The turn loop dispatches `len(b.Workers)` ranges,
not `req.Threads` of them: with one connected worker and a request asking
for 2 threads, a single range is dispatched. -/
theorem C6_ranges_not_request_threads :
    (iterRanges reqC6.ImageHeight brokerC6.Workers).length ≠ reqC6.Threads := by decide

/-- C6 (amended).  On every iteration of the `EvolveWorld` loop the
coordinator builds exactly one row range per *connected worker* (`threads =
len(b.Workers)`, not the request's Threads field), ranges are contiguous in
worker-index order starting at row 0, each end boundary is clamped to
`height`, and the boundaries are the float32-computed values
`int(float32(i) * (float32(height)/float32(threads)))` (which deviate from
the exact floor rule where float32 rounding differs). -/
theorem C6_one_range_per_connected_worker (height n : ℕ) :
    (iterRanges height n).length = n ∧
    (0 < n → startRowW height n 0 = 0) ∧
    (∀ i, i + 1 < n → endRowW height n i = min (startRowW height n (i + 1)) height) ∧
    (∀ i, i < n → endRowW height n i ≤ height) := by
  refine ⟨by simp [iterRanges], fun _ => ?_, fun i _ => rfl, fun i _ => Nat.min_le_right _ _⟩
  have hz : ∀ b : ℕ × ℤ, dyMul 0 b = 0 := fun b => by
    simp [dyMul, round32ND]
  have h0 : conv32 0 = 0 := by simp [conv32, round32ND]
  simp [startRowW, boundF32, h0, hz, dyFloorNat]

/-- Witness for the amended C6 at height 13 with 11 workers. -/
theorem C6_one_range_per_connected_worker_witness :
    (iterRanges 13 11).length = 11 ∧ startRowW 13 11 0 = 0 ∧
    endRowW 13 11 4 = min (startRowW 13 11 5) 13 ∧ endRowW 13 11 10 ≤ 13 :=
  ⟨(C6_one_range_per_connected_worker 13 11).1,
   (C6_one_range_per_connected_worker 13 11).2.1 (by decide),
   (C6_one_range_per_connected_worker 13 11).2.2.1 4 (by decide),
   (C6_one_range_per_connected_worker 13 11).2.2.2 10 (by decide)⟩

lemma oneTurn_zero_workers (world : List (List ℕ)) (p : Params) : oneTurn world p 0 = [] := by
  simp [oneTurn, iterRanges]

lemma EvolveWorldLoop_turn (p : Params) (n : ℕ) :
    ∀ f world turn, p.Turns ≤ turn + f →
      (EvolveWorldLoop f world turn p n).2 = max turn p.Turns := by
  intro f
  induction f with
  | zero =>
    intro world turn h
    simp only [EvolveWorldLoop]
    omega
  | succ f ih =>
    intro world turn h
    simp only [EvolveWorldLoop]
    split_ifs with hlt
    · rw [ih _ _ (by omega)]
      omega
    · omega

lemma EvolveWorldLoop_empty_world (p : Params) :
    ∀ f turn, (EvolveWorldLoop f ([] : List (List ℕ)) turn p 0).1 = [] := by
  intro f
  induction f with
  | zero => intro turn; rfl
  | succ f ih =>
    intro turn
    simp only [EvolveWorldLoop]
    split_ifs with hlt
    · rw [oneTurn_zero_workers]
      exact ih _
    · rfl

lemma EvolveWorldLoop_zero_workers (p : Params) (f : ℕ) (world : List (List ℕ)) (turn : ℕ)
    (hlt : turn < p.Turns) (hf : 1 ≤ f) :
    (EvolveWorldLoop f world turn p 0).1 = [] := by
  obtain ⟨f', rfl⟩ : ∃ f', f = f' + 1 := ⟨f - 1, by omega⟩
  simp only [EvolveWorldLoop]
  rw [if_pos hlt, oneTurn_zero_workers]
  exact EvolveWorldLoop_empty_world p f' _

lemma EvolveWorld_ignores_req_world (b : Broker) (req : EvolveWorldRequest)
    (w' : List (List ℕ)) (h : b.Continue = true) :
    EvolveWorld b { req with World := w' } = EvolveWorld b req := by
  simp [EvolveWorld, h, reqParams]

/-- C3.  `QuitServer` (Checkpoint) marks the session resumable, sets the quit
flag, snapshots `LastWorld = World` and performs no teardown (grid, turn and
worker set untouched); afterwards every `EvolveWorld` call ignores the
caller-supplied grid, resumes the loop from the frozen grid and turn,
reaches `max frozenTurn T`, and when `T ≤ frozenTurn` returns the frozen
grid and turn unchanged. -/
theorem C3_checkpoint_then_resume (b : Broker) (req : EvolveWorldRequest) :
    (QuitServer b).Continue = true ∧
    (QuitServer b).Quit = true ∧
    (QuitServer b).LastWorld = b.World ∧
    (QuitServer b).World = b.World ∧
    (QuitServer b).Turn = b.Turn ∧
    (QuitServer b).Workers = b.Workers ∧
    (∀ w', EvolveWorld (QuitServer b) { req with World := w' } =
           EvolveWorld (QuitServer b) req) ∧
    (EvolveWorld (QuitServer b) req).2.Turn = max b.Turn req.Turn ∧
    (EvolveWorld (QuitServer b) req).2.World =
      (EvolveWorldLoop (req.Turn - b.Turn) b.World b.Turn
        { Turns := req.Turn, Threads := req.Threads
          ImageWidth := req.ImageWidth, ImageHeight := req.ImageHeight } b.Workers).1 ∧
    (req.Turn ≤ b.Turn →
      (EvolveWorld (QuitServer b) req).2.World = b.World ∧
      (EvolveWorld (QuitServer b) req).2.Turn = b.Turn) := by
  refine ⟨rfl, rfl, rfl, rfl, rfl, rfl,
    fun w' => EvolveWorld_ignores_req_world _ req w' rfl, ?_, ?_, ?_⟩
  · show (EvolveWorldLoop (req.Turn - b.Turn) b.World b.Turn _ b.Workers).2 = _
    rw [EvolveWorldLoop_turn _ _ _ _ _
      (by show req.Turn ≤ b.Turn + (req.Turn - b.Turn); omega)]
    rfl
  · rfl
  · intro hle
    have hf : req.Turn - b.Turn = 0 := by omega
    constructor
    · show (EvolveWorldLoop (req.Turn - b.Turn) b.World b.Turn _ b.Workers).1 = b.World
      rw [hf]
      rfl
    · show (EvolveWorldLoop (req.Turn - b.Turn) b.World b.Turn _ b.Workers).2 = b.Turn
      rw [hf]
      rfl

/-- Concrete broker for the C3 and C7 witnesses: checkpointed at turn 5. -/
def brokerT5 : Broker :=
  { LastWorld := [[0]], World := [[0]], Turn := 5, Quit := false, Workers := 0,
    TurnDone := false, FlippedEvents := [], Continue := false }

/-- Concrete request with a turn budget of 3, below the frozen turn 5. -/
def reqT3 : EvolveWorldRequest :=
  { World := [[255]], Width := 1, Height := 1, Turn := 3, Threads := 1,
    ImageHeight := 1, ImageWidth := 1 }

/-- Witness for C3 at the concrete checkpointed broker. -/
theorem C3_checkpoint_then_resume_witness :
    EvolveWorld (QuitServer brokerT5) { reqT3 with World := [[255, 255]] } =
      EvolveWorld (QuitServer brokerT5) reqT3 ∧
    (EvolveWorld (QuitServer brokerT5) reqT3).2.World = brokerT5.World ∧
    (EvolveWorld (QuitServer brokerT5) reqT3).2.Turn = brokerT5.Turn :=
  ⟨(C3_checkpoint_then_resume brokerT5 reqT3).2.2.2.2.2.2.1 [[255, 255]],
   ((C3_checkpoint_then_resume brokerT5 reqT3).2.2.2.2.2.2.2.2.2 (by decide)).1,
   ((C3_checkpoint_then_resume brokerT5 reqT3).2.2.2.2.2.2.2.2.2 (by decide)).2⟩


lemma reqParams_Turns (req : EvolveWorldRequest) : (reqParams req).Turns = req.Turn := rfl

lemma EvolveWorld_continue (b : Broker) (req : EvolveWorldRequest) (h : b.Continue = true) :
    EvolveWorld b req =
      ({ b with
          Quit := false
          LastWorld := b.World
          World := (EvolveWorldLoop (req.Turn - b.Turn) b.World b.Turn (reqParams req) b.Workers).1
          Turn := (EvolveWorldLoop (req.Turn - b.Turn) b.World b.Turn (reqParams req) b.Workers).2
          TurnDone := if b.Turn < req.Turn then true else b.TurnDone },
       { World := (EvolveWorldLoop (req.Turn - b.Turn) b.World b.Turn (reqParams req) b.Workers).1
         Turn := (EvolveWorldLoop (req.Turn - b.Turn) b.World b.Turn (reqParams req) b.Workers).2 }) := by
  simp [EvolveWorld, h, reqParams]

lemma EvolveWorld_fresh (b : Broker) (req : EvolveWorldRequest) (h : b.Continue = false) :
    EvolveWorld b req =
      ({ b with
          Quit := false
          LastWorld := req.World
          World := (EvolveWorldLoop req.Turn req.World 0 (reqParams req) b.Workers).1
          Turn := (EvolveWorldLoop req.Turn req.World 0 (reqParams req) b.Workers).2
          TurnDone := if 0 < req.Turn then true else b.TurnDone },
       { World := (EvolveWorldLoop req.Turn req.World 0 (reqParams req) b.Workers).1
         Turn := (EvolveWorldLoop req.Turn req.World 0 (reqParams req) b.Workers).2 }) := by
  simp [EvolveWorld, h, reqParams]

lemma EvolveWorldLoop_turn_req (b : Broker) (req : EvolveWorldRequest) (world : List (List ℕ))
    (turn : ℕ) :
    (EvolveWorldLoop (req.Turn - turn) world turn (reqParams req) b.Workers).2 =
      max turn req.Turn := by
  rw [EvolveWorldLoop_turn _ _ _ _ _ (by rw [reqParams_Turns]; omega), reqParams_Turns]

/-- Resumable broker frozen at turn 5, for the C7 counterexample. -/
def brokerC7 : Broker :=
  { LastWorld := [[0]], World := [[0]], Turn := 5, Quit := true, Workers := 0,
    TurnDone := false, FlippedEvents := [], Continue := true }

/-- C7 (counterexample).  Resuming a session checkpointed at turn 5 with a
request whose turn budget is 3 leaves `Turn = 5 > 3`: the claimed invariant
`Turn ≤ requested turns` fails. -/
theorem C7_turn_exceeds_requested :
    (EvolveWorld brokerC7 reqT3).2.Turn = 5 ∧
    ¬ (EvolveWorld brokerC7 reqT3).2.Turn ≤ reqT3.Turn := by decide

/-- C7 (amended).  `Turn` starts at 0 for a fresh session (or at the frozen
value when resuming), ends at `max start T` where `T` is the requested turn
count — so it is non-decreasing across the call, is incremented only by the
turn loop and only while below `T`, and satisfies `0 ≤ Turn ≤ max start T`
(it exceeds the requested `T` exactly when a resumed session was frozen
beyond `T`); no other broker operation modifies `Turn`. -/
theorem C7_turn_monotone_bounded (b : Broker) (req : EvolveWorldRequest) :
    (EvolveWorld b req).2.Turn = max (if b.Continue then b.Turn else 0) req.Turn ∧
    (if b.Continue then b.Turn else 0) ≤ (EvolveWorld b req).2.Turn ∧
    (EvolveWorld b req).1.Turn = (EvolveWorld b req).2.Turn ∧
    (QuitServer b).Turn = b.Turn ∧
    (KillServer b).Turn = b.Turn ∧
    (Pause b).Turn = b.Turn ∧
    (Unpause b).Turn = b.Turn ∧
    ((GetGlobal b).1).Turn = b.Turn ∧
    ((AliveCellsCount b).1).Turn = b.Turn ∧
    ((CalculateAliveCells b).1).Turn = b.Turn ∧
    ((GetCellFlipped b).1).Turn = b.Turn ∧
    ((GetTurnDone b).1).Turn = b.Turn ∧
    ((GetContinue b).1).Turn = b.Turn := by
  have hmain1 : (EvolveWorld b req).2.Turn = max (if b.Continue then b.Turn else 0) req.Turn := by
    cases hb : b.Continue
    · rw [EvolveWorld_fresh b req hb, hb]
      show (EvolveWorldLoop req.Turn req.World 0 (reqParams req) b.Workers).2 = max 0 req.Turn
      have h := EvolveWorldLoop_turn_req b req req.World 0
      simpa using h
    · rw [EvolveWorld_continue b req hb, hb]
      show (EvolveWorldLoop (req.Turn - b.Turn) b.World b.Turn (reqParams req) b.Workers).2 =
        max b.Turn req.Turn
      exact EvolveWorldLoop_turn_req b req b.World b.Turn
  have hmain2 : (EvolveWorld b req).1.Turn = (EvolveWorld b req).2.Turn := by
    cases hb : b.Continue
    · rw [EvolveWorld_fresh b req hb]
    · rw [EvolveWorld_continue b req hb]
  refine ⟨hmain1, ?_, hmain2, rfl, rfl, rfl, rfl, rfl, rfl, rfl, rfl, rfl, rfl⟩
  rw [hmain1]
  cases hb : b.Continue <;> simp

/-- C9.  With zero connected workers, a non-resumable `EvolveWorld` call with
a positive turn budget still runs every iteration: each iteration installs
the empty (nil) grid (`oneTurn world p 0 = []`), and the call returns
turn = turns with an empty grid both in the response and in the stored
state — the caller-supplied world is silently lost.  (The Go method's error
result is always nil.) -/
theorem C9_zero_workers_empty_grid (b : Broker) (req : EvolveWorldRequest)
    (hc : b.Continue = false) (hw : b.Workers = 0) (ht : 0 < req.Turn) :
    (EvolveWorld b req).2.World = [] ∧
    (EvolveWorld b req).2.Turn = req.Turn ∧
    (EvolveWorld b req).1.World = [] ∧
    (EvolveWorld b req).1.Turn = req.Turn ∧
    (∀ world : List (List ℕ), ∀ p : Params, oneTurn world p 0 = []) := by
  rw [EvolveWorld_fresh b req hc]
  have hwempty : (EvolveWorldLoop req.Turn req.World 0 (reqParams req) b.Workers).1 = [] := by
    rw [hw]
    exact EvolveWorldLoop_zero_workers _ _ _ _ (by rw [reqParams_Turns]; exact ht) (by omega)
  have hturn : (EvolveWorldLoop req.Turn req.World 0 (reqParams req) b.Workers).2 = req.Turn := by
    have := EvolveWorldLoop_turn_req b req req.World 0
    simpa using this
  exact ⟨hwempty, hturn, hwempty, hturn, fun world p => oneTurn_zero_workers world p⟩

/-- Witness for C9: a 2-turn run on a 1×1 grid with no workers. -/
theorem C9_zero_workers_empty_grid_witness :
    (EvolveWorld brokerT5 { reqT3 with Turn := 2 }).2.World = [] ∧
    (EvolveWorld brokerT5 { reqT3 with Turn := 2 }).2.Turn = 2 ∧
    (EvolveWorld brokerT5 { reqT3 with Turn := 2 }).1.World = [] ∧
    (EvolveWorld brokerT5 { reqT3 with Turn := 2 }).1.Turn = 2 ∧
    (∀ world : List (List ℕ), ∀ p : Params, oneTurn world p 0 = []) :=
  C9_zero_workers_empty_grid brokerT5 { reqT3 with Turn := 2 }
    (by decide) (by decide) (by decide)

/-- C10.  `QuitServer` sets `Continue` and no broker operation ever clears
it: `EvolveWorld` resets `Quit` to false on entry but preserves `Continue`,
and every other operation preserves it too.  Consequently every later
`EvolveWorld` call on a resumable broker ignores its caller-supplied seed
grid and continues the loop from the stored grid and turn. -/
theorem C10_continue_sticky (b : Broker) (req : EvolveWorldRequest) (w' : List (List ℕ)) :
    (QuitServer b).Continue = true ∧
    (EvolveWorld b req).1.Continue = b.Continue ∧
    (EvolveWorld b req).1.Quit = false ∧
    (KillServer b).Continue = b.Continue ∧
    (Pause b).Continue = b.Continue ∧
    (Unpause b).Continue = b.Continue ∧
    ((GetGlobal b).1).Continue = b.Continue ∧
    ((AliveCellsCount b).1).Continue = b.Continue ∧
    ((CalculateAliveCells b).1).Continue = b.Continue ∧
    ((GetCellFlipped b).1).Continue = b.Continue ∧
    ((GetTurnDone b).1).Continue = b.Continue ∧
    ((GetContinue b).1).Continue = b.Continue ∧
    (b.Continue = true →
      EvolveWorld b { req with World := w' } = EvolveWorld b req ∧
      (EvolveWorld b req).2.World =
        (EvolveWorldLoop (req.Turn - b.Turn) b.World b.Turn (reqParams req) b.Workers).1 ∧
      (EvolveWorld b req).2.Turn = max b.Turn req.Turn) := by
  have hcont : (EvolveWorld b req).1.Continue = b.Continue := by
    cases hb : b.Continue
    · rw [EvolveWorld_fresh b req hb]
      exact hb
    · rw [EvolveWorld_continue b req hb]
      exact hb
  have hquit : (EvolveWorld b req).1.Quit = false := by
    cases hb : b.Continue
    · rw [EvolveWorld_fresh b req hb]
    · rw [EvolveWorld_continue b req hb]
  refine ⟨rfl, hcont, hquit, rfl, rfl, rfl, rfl, rfl, rfl, rfl, rfl, rfl, fun h => ?_⟩
  refine ⟨EvolveWorld_ignores_req_world b req w' h, ?_, ?_⟩
  · rw [EvolveWorld_continue b req h]
  · rw [EvolveWorld_continue b req h]
    exact EvolveWorldLoop_turn_req b req b.World b.Turn

/-- Witness for C10 on a resumable broker frozen at turn 5. -/
theorem C10_continue_sticky_witness :
    EvolveWorld brokerC7 { reqT3 with World := [[255]] } = EvolveWorld brokerC7 reqT3 ∧
    (EvolveWorld brokerC7 reqT3).2.World =
      (EvolveWorldLoop (reqT3.Turn - brokerC7.Turn) brokerC7.World brokerC7.Turn
        (reqParams reqT3) brokerC7.Workers).1 ∧
    (EvolveWorld brokerC7 reqT3).2.Turn = max brokerC7.Turn reqT3.Turn :=
  (C10_continue_sticky brokerC7 reqT3 [[255]]).2.2.2.2.2.2.2.2.2.2.2.2 (by decide)

lemma xor2D_length (a b : List (List ℕ)) : (xor2D a b).length = a.length := by
  simp [xor2D]

lemma xor2D_row0_length (a b : List (List ℕ)) (h : 0 < a.length) :
    ((xor2D a b).getD 0 []).length = (a.getD 0 []).length := by
  unfold xor2D
  rw [getD_map_range _ _ h]
  simp

lemma xor2D_cell (a b : List (List ℕ)) {i j : ℕ} (hi : i < a.length)
    (hj : j < (a.getD 0 []).length) :
    ((xor2D a b).getD i []).getD j 0 = getCell a i j ^^^ getCell b i j := by
  unfold xor2D
  rw [getD_map_range _ _ hi, getD_map_range _ _ hj]

lemma mem_findFlippedCells (next current : List (List ℕ)) (c : Cell) :
    c ∈ findFlippedCells next current ↔
      (current.length ≠ 0 ∧ next.length ≠ 0 ∧ (current.getD 0 []).length ≠ 0 ∧
        (next.getD 0 []).length ≠ 0) ∧
      c.Y < current.length ∧ c.X < (current.getD 0 []).length ∧
      getCell current c.Y c.X ≠ getCell next c.Y c.X := by
  unfold findFlippedCells
  split_ifs with hE
  · simp only [List.not_mem_nil, false_iff]
    rintro ⟨⟨h1, h2, h3, h4⟩, -⟩
    rcases hE with h | h | h | h <;> contradiction
  · push_neg at hE
    obtain ⟨h1, h2, h3, h4⟩ := hE
    have hpos : 0 < current.length := Nat.pos_of_ne_zero h1
    simp only [List.mem_flatMap, List.mem_filterMap, List.mem_range]
    constructor
    · rintro ⟨i, hi, j, hj, hcj⟩
      rw [xor2D_length] at hi
      rw [xor2D_row0_length _ _ hpos] at hj
      by_cases hx : ((xor2D current next).getD i []).getD j 0 ≠ 0
      · rw [if_pos hx] at hcj
        obtain rfl : (⟨j, i⟩ : Cell) = c := Option.some_injective _ hcj
        rw [xor2D_cell _ _ hi hj] at hx
        refine ⟨⟨h1, h2, h3, h4⟩, hi, hj, fun hcc => hx ?_⟩
        rw [Nat.xor_eq_zero]
        exact hcc
      · rw [if_neg hx] at hcj
        exact Option.noConfusion hcj
    · rintro ⟨-, hy, hx, hdiff⟩
      have hcond : ((xor2D current next).getD c.Y []).getD c.X 0 ≠ 0 := by
        rw [xor2D_cell _ _ hy hx, Ne, Nat.xor_eq_zero]
        exact hdiff
      exact ⟨c.Y, by rw [xor2D_length]; exact hy, c.X,
        by rw [xor2D_row0_length _ _ hpos]; exact hx, by rw [if_pos hcond]⟩

lemma cell_mem_inner {C i : ℕ} {P : ℕ → Prop} [DecidablePred P] {c : Cell}
    (h : c ∈ (List.range C).filterMap fun j => if P j then some (⟨j, i⟩ : Cell) else none) :
    c.Y = i := by
  rw [List.mem_filterMap] at h
  obtain ⟨j, -, hj⟩ := h
  by_cases hp : P j
  · rw [if_pos hp] at hj
    cases Option.some_injective _ hj
    rfl
  · rw [if_neg hp] at hj
    exact Option.noConfusion hj

lemma nodup_findFlippedCells (next current : List (List ℕ)) :
    (findFlippedCells next current).Nodup := by
  unfold findFlippedCells
  split_ifs
  · exact List.nodup_nil
  · rw [List.nodup_flatMap]
    constructor
    · intro i hi
      refine (List.nodup_range _).filterMap ?_
      intro a a' cc hca hca'
      rw [Option.mem_def] at hca hca'
      split_ifs at hca hca' with p1 p2
      · have h1 := Option.some_injective _ hca
        have h2 := Option.some_injective _ hca'
        exact congrArg Cell.X (h1.trans h2.symm)
    · refine (List.pairwise_lt_range _).imp ?_
      intro i i' hlt
      simp only [Function.onFun]
      rw [List.disjoint_left]
      intro c hc hc'
      have e1 := cell_mem_inner hc
      have e2 := cell_mem_inner hc'
      omega

lemma findFlippedCells_self (w : List (List ℕ)) : findFlippedCells w w = [] := by
  rw [List.eq_nil_iff_forall_not_mem]
  intro c hc
  rw [mem_findFlippedCells] at hc
  exact hc.2.2.2 rfl

theorem C4_getCellFlipped_diff (b : Broker) (h w : ℕ)
    (hWl : b.World.length = h) (hLl : b.LastWorld.length = h)
    (hWr : ∀ row ∈ b.World, row.length = w) (hLr : ∀ row ∈ b.LastWorld, row.length = w)
    (hh : 0 < h) (hw : 0 < w) :
    (∀ e ∈ (GetCellFlipped b).2, e.CompletedTurns = b.Turn ∧ e.Cell.Y < h ∧ e.Cell.X < w ∧
      getCell b.World e.Cell.Y e.Cell.X ≠ getCell b.LastWorld e.Cell.Y e.Cell.X) ∧
    (∀ x y, y < h → x < w → getCell b.World y x ≠ getCell b.LastWorld y x →
      ({ CompletedTurns := b.Turn, Cell := { X := x, Y := y } } : FlippedEvent) ∈
        (GetCellFlipped b).2) ∧
    ((GetCellFlipped b).2.map FlippedEvent.Cell).Nodup ∧
    (GetCellFlipped b).1.LastWorld = b.World ∧
    (GetCellFlipped ((GetCellFlipped b).1)).2 = [] ∧
    (∀ b2 : Broker, b2.World = [] ∨ b2.LastWorld = [] ∨ b2.World.getD 0 [] = [] ∨
      b2.LastWorld.getD 0 [] = [] → (GetCellFlipped b2).2 = []) := by
  have hLrow0 : (b.LastWorld.getD 0 []).length = w := by
    have h0 : (0 : ℕ) < b.LastWorld.length := by omega
    rw [List.getD_eq_getElem _ _ h0]
    exact hLr _ (List.getElem_mem h0)
  have hWrow0 : (b.World.getD 0 []).length = w := by
    have h0 : (0 : ℕ) < b.World.length := by omega
    rw [List.getD_eq_getElem _ _ h0]
    exact hWr _ (List.getElem_mem h0)
  refine ⟨?_, ?_, ?_, rfl, ?_, ?_⟩
  · intro e he
    have he' : e ∈ (findFlippedCells b.World b.LastWorld).map
        (fun c => ({ CompletedTurns := b.Turn, Cell := c } : FlippedEvent)) := he
    rw [List.mem_map] at he'
    obtain ⟨c, hc, rfl⟩ := he'
    rw [mem_findFlippedCells] at hc
    obtain ⟨-, hy, hx, hdiff⟩ := hc
    exact ⟨rfl, show c.Y < h by omega, show c.X < w by rw [hLrow0] at hx; exact hx,
      fun hcc => hdiff hcc.symm⟩
  · intro x y hy hx hdiff
    have hmem : (⟨x, y⟩ : Cell) ∈ findFlippedCells b.World b.LastWorld := by
      rw [mem_findFlippedCells]
      refine ⟨⟨by omega, by omega, by rw [hLrow0]; omega, by rw [hWrow0]; omega⟩,
        show y < b.LastWorld.length by omega,
        show x < (b.LastWorld.getD 0 []).length by rw [hLrow0]; omega,
        fun hcc => hdiff hcc.symm⟩
    exact List.mem_map_of_mem _ hmem
  · have hid : ∀ l : List Cell,
        (l.map fun c => ({ CompletedTurns := b.Turn, Cell := c } : FlippedEvent)).map
          FlippedEvent.Cell = l := by
      intro l
      induction l with
      | nil => rfl
      | cons a t ih => simp [ih]
    have hmap : (GetCellFlipped b).2.map FlippedEvent.Cell =
        findFlippedCells b.World b.LastWorld := hid _
    rw [hmap]
    exact nodup_findFlippedCells _ _
  · show ((findFlippedCells b.World b.World).map _) = []
    rw [findFlippedCells_self]
    rfl
  · intro b2 hb2
    show ((findFlippedCells b2.World b2.LastWorld).map _) = []
    have hnil : findFlippedCells b2.World b2.LastWorld = [] := by
      unfold findFlippedCells
      rcases hb2 with h2 | h2 | h2 | h2
      · rw [if_pos (Or.inr (Or.inl (by rw [h2]; rfl)))]
      · rw [if_pos (Or.inl (by rw [h2]; rfl))]
      · rw [if_pos (Or.inr (Or.inr (Or.inr (by rw [h2]; rfl))))]
      · rw [if_pos (Or.inr (Or.inr (Or.inl (by rw [h2]; rfl))))]
    rw [hnil]
    rfl

/-- Broker whose `World` and `LastWorld` differ at exactly (0,0) and (1,1),
for the C4 witness. -/
def brokerC4 : Broker :=
  { LastWorld := [[0, 0], [0, 255]], World := [[255, 0], [0, 0]], Turn := 7, Quit := false,
    Workers := 0, TurnDone := false, FlippedEvents := [], Continue := false }

/-- Witness for C4 on a 2×2 broker differing in two cells. -/
theorem C4_getCellFlipped_diff_witness :
    (∀ e ∈ (GetCellFlipped brokerC4).2, e.CompletedTurns = brokerC4.Turn ∧ e.Cell.Y < 2 ∧
      e.Cell.X < 2 ∧
      getCell brokerC4.World e.Cell.Y e.Cell.X ≠ getCell brokerC4.LastWorld e.Cell.Y e.Cell.X) ∧
    (∀ x y, y < 2 → x < 2 →
      getCell brokerC4.World y x ≠ getCell brokerC4.LastWorld y x →
      ({ CompletedTurns := brokerC4.Turn, Cell := { X := x, Y := y } } : FlippedEvent) ∈
        (GetCellFlipped brokerC4).2) ∧
    ((GetCellFlipped brokerC4).2.map FlippedEvent.Cell).Nodup ∧
    (GetCellFlipped brokerC4).1.LastWorld = brokerC4.World ∧
    (GetCellFlipped ((GetCellFlipped brokerC4).1)).2 = [] ∧
    (∀ b2 : Broker, b2.World = [] ∨ b2.LastWorld = [] ∨ b2.World.getD 0 [] = [] ∨
      b2.LastWorld.getD 0 [] = [] → (GetCellFlipped b2).2 = []) :=
  C4_getCellFlipped_diff brokerC4 2 2 (by decide) (by decide) (by decide) (by decide)
    (by decide) (by decide)

/-- C8.  After `Pause` runs from the free-mutex state the mutex stays held
across the call boundary, so each lock-requiring operation named by the
claim — the turn loop's next iteration, `GetGlobal`, `AliveCellsCount`,
`CalculateAliveCells`, `GetCellFlipped`, `GetTurnDone` — cannot proceed
until `Unpause`; `Unpause` is enabled exactly in the held state and
restores the pre-`Pause` (free) mutex state, after which every operation
can proceed again. -/
theorem C8_pause_holds_lock_until_unpause :
    muAfter .pause false = true ∧
    ([BrokerOp.loopIter, .getGlobal, .aliveCellsCount, .calculateAliveCells, .getCellFlipped,
      .getTurnDone].all fun op => !canProceed op (muAfter .pause false)) = true ∧
    canProceed .unpause (muAfter .pause false) = true ∧
    muAfter .unpause (muAfter .pause false) = false ∧
    ([BrokerOp.loopIter, .getGlobal, .aliveCellsCount, .calculateAliveCells, .getCellFlipped,
      .getTurnDone].all fun op => canProceed op (muAfter .unpause (muAfter .pause false))) =
      true ∧
    canProceed .pause false = true := by decide
